import Mathlib

/-!
Shallow embedding of `src/evaluate.py`, a single-pass pipeline that loads a
rubric of weighted criteria and a table of per-tool raw scores, validates
both, computes weighted and normalized totals, ranks the tools and renders
two textual reports.

Modelling conventions:
* Python floats are modelled as rationals (`ℚ`, exact arithmetic); decimal
  literals such as `0.6` or `1e-5` denote the exact decimal value.
* Fallible Python code (raising `ValueError`, `KeyError` or
  `ZeroDivisionError`) is modelled with `Except Err`.
* CSV rows produced by `csv.DictReader` are modelled as association lists
  from column name to raw string value.
* `float(...)` applied to a string is modelled by `parseFloatQ`, covering
  plain decimal notation (optional sign, digits, optional fractional part,
  surrounding whitespace); exponent notation, infinities and NaN are not
  modelled, as no claim depends on them.
* the f-string formats `f"{x:.3f}"` and `f"{x:.1f}"` are modelled by
  `formatFixed` (fixed-point, sign-magnitude, round half to even).
-/

attribute [local semireducible] Rat.add Rat.sub Rat.mul Rat.inv Rat.ofScientific

deriving instance DecidableEq for Except

/-- Python exception values raised by `evaluate.py`. -/
inductive Err where
  | valueError (msg : String)
  | keyError (key : String)
  | zeroDivisionError
deriving DecidableEq, Repr

/-- Represents a single evaluation criterion (the frozen dataclass `Criterion`). -/
structure Criterion where
  cid : String
  name : String
  weight : ℚ
deriving DecidableEq, Repr

/-- Raw criteria entry of the YAML rubric: the fields `id`, `name`, `weight` of
one element of the `criteria` list, with `str(...)` / `float(...)` coercions
already applied to the YAML scalars. -/
structure RawCriterion where
  id : String
  name : String
  weight : ℚ
deriving DecidableEq, Repr

/-- The optional `scale` mapping of the YAML rubric (`scale.min`, `scale.max`). -/
structure ScaleData where
  min : Option ℤ := none
  max : Option ℤ := none
deriving DecidableEq, Repr

/-- Parsed YAML rubric document: optional `scale` mapping and the `criteria` list. -/
structure RubricData where
  scale : Option ScaleData := none
  criteria : List RawCriterion
deriving DecidableEq, Repr

/-- Python `str.strip()`: remove leading and trailing whitespace. -/
def pyStrip (s : String) : String :=
  ⟨((s.data.dropWhile Char.isWhitespace).reverse.dropWhile Char.isWhitespace).reverse⟩

/-- Value of a list of decimal digit characters, folded onto `acc`; `none` if a
non-digit character occurs. -/
def decDigitsAux : List Char → ℕ → Option ℕ
  | [], acc => some acc
  | c :: cs, acc => if c.isDigit then decDigitsAux cs (acc * 10 + (c.toNat - 48)) else none

/-- Unsigned decimal numeral (digits, optionally with one decimal point) to an
exact rational; `none` on malformed input. -/
def parseUnsignedQ (cs : List Char) : Option ℚ :=
  let intPart := cs.takeWhile (· ≠ '.')
  match cs.dropWhile (· ≠ '.') with
  | [] => if intPart.isEmpty then none else (decDigitsAux intPart 0).map (fun n => (n : ℚ))
  | _ :: fracPart =>
    if intPart.isEmpty && fracPart.isEmpty then none
    else
      (decDigitsAux intPart 0).bind fun ip =>
        (decDigitsAux fracPart 0).map fun fp =>
          (ip : ℚ) + (fp : ℚ) / (10 : ℚ) ^ fracPart.length

/-- Python `float(s)` for a string in plain decimal notation: optional
surrounding whitespace, optional sign, digits with an optional fractional
part. Returns `none` where Python raises `ValueError`. -/
def parseFloatQ (s : String) : Option ℚ :=
  match (pyStrip s).data with
  | '-' :: cs => (parseUnsignedQ cs).map (fun q => -q)
  | '+' :: cs => parseUnsignedQ cs
  | cs => parseUnsignedQ cs

/-- Floor of a rational as an integer. -/
def ratFloor (q : ℚ) : ℤ := q.num.fdiv q.den

/-- Round a rational to the nearest integer, ties to even. -/
def roundHalfEven (q : ℚ) : ℤ :=
  let f := ratFloor q
  let r := q - f
  if r < 1 / 2 then f
  else if 1 / 2 < r then f + 1
  else if f % 2 = 0 then f else f + 1

/-- Left-pad a numeral string with zeros up to length `len`. -/
def padZeros (s : String) (len : ℕ) : String :=
  ⟨List.replicate (len - s.length) '0'⟩ ++ s

/-- Fixed-point rendering of a non-negative rational with `prec` decimal digits. -/
def formatFixedNN (q : ℚ) (prec : ℕ) : String :=
  let n := (roundHalfEven (q * (10 : ℚ) ^ prec)).toNat
  if prec = 0 then toString n
  else toString (n / 10 ^ prec) ++ "." ++ padZeros (toString (n % 10 ^ prec)) prec

/-- Python fixed-point format `f"{q:.{prec}f}"`: sign-magnitude rendering with
exactly `prec` digits after the decimal point, rounding half to even. -/
def formatFixed (q : ℚ) (prec : ℕ) : String :=
  if q < 0 then "-" ++ formatFixedNN (-q) prec else formatFixedNN q prec

/-- Embeds `load_criteria` (evaluate.py lines 17-49): extract the scale with
defaults `(1, 5)`, build the trimmed `Criterion` list, then validate the
weight sum (absolute tolerance `1e-5`) and the uniqueness of the ids. The
`len(ids) != len(set(ids))` check is rendered with `List.dedup`. -/
def load_criteria (data : RubricData) : Except Err (List Criterion × ℤ × ℤ) :=
  let scale := data.scale.getD {}
  let min_score := scale.min.getD 1
  let max_score := scale.max.getD 5
  let criteria := data.criteria.map fun c =>
    { cid := pyStrip c.id, name := pyStrip c.name, weight := c.weight : Criterion }
  let total_weight := (criteria.map Criterion.weight).sum
  if |total_weight - 1| > 1e-5 then
    Except.error (Err.valueError "Criteria weights must sum to 1.0")
  else
    let ids := criteria.map Criterion.cid
    if ids.dedup.length ≠ ids.length then
      Except.error (Err.valueError "Criterion IDs must be unique")
    else
      Except.ok (criteria, min_score, max_score)

/-- One CSV data row as produced by `csv.DictReader`: an association list from
column name to raw string value. -/
abbrev Row := List (String × String)

/-- Embeds `load_scores` (evaluate.py lines 51-64): the list of rows must be
non-empty and the first row must have a `tool` column. -/
def load_scores (rows : List Row) : Except Err (List Row) :=
  match rows with
  | [] => Except.error (Err.valueError "scores.csv is empty")
  | r :: _ =>
    if (r.lookup "tool").isNone then
      Except.error (Err.valueError "scores.csv must contain a 'tool' column")
    else
      Except.ok rows

/-- Embeds `parse_score` (evaluate.py lines 66-73): convert the raw string with
`float(...)`, then require `min_score <= score <= max_score`. -/
def parse_score (value : String) (min_score max_score : ℤ) : Except Err ℚ :=
  match parseFloatQ value with
  | none => Except.error (Err.valueError ("could not convert string to float: " ++ value))
  | some score =>
    if ¬((min_score : ℚ) ≤ score ∧ score ≤ (max_score : ℚ)) then
      Except.error (Err.valueError ("Score " ++ toString score ++ " out of range"))
    else
      Except.ok score

/-- One ranked output record (the result dict of `compute_results`): all four
fields carry strings, the two numeric ones already formatted. -/
structure Result where
  tool : String
  weighted_score : String
  normalized_percent : String
  notes : String
deriving DecidableEq, Repr

/-- The inner `for c in criteria` loop of `compute_results` (lines 92-96):
accumulate `(weighted_total, raw_total, max_raw)` over the criteria, looking
each criterion id up in the row (`KeyError` if absent) and validating the
score with `parse_score`. -/
def accumScores (min_score max_score : ℤ) (row : Row) :
    List Criterion → ℚ × ℚ × ℚ → Except Err (ℚ × ℚ × ℚ)
  | [], acc => Except.ok acc
  | c :: cs, (weighted_total, raw_total, max_raw) => do
    let v ← match row.lookup c.cid with
      | some v => Except.ok v
      | none => Except.error (Err.keyError c.cid)
    let score ← parse_score v min_score max_score
    accumScores min_score max_score row cs
      (weighted_total + score * c.weight, raw_total + score, max_raw + (max_score : ℚ))

/-- The body of the `for row in rows` loop of `compute_results` (lines 86-107):
produce one `Result` for a row. Python's `row["tool"]` raises `KeyError` when
the column is absent, and `(raw_total / max_raw)` raises `ZeroDivisionError`
when `max_raw` is zero; both are modelled explicitly. -/
def scoreRow (criteria : List Criterion) (min_score max_score : ℤ) (row : Row) :
    Except Err Result := do
  let tool ← match row.lookup "tool" with
    | some t => Except.ok (pyStrip t)
    | none => Except.error (Err.keyError "tool")
  let (weighted_total, raw_total, max_raw) ←
    accumScores min_score max_score row criteria (0, 0, 0)
  if max_raw = 0 then
    Except.error Err.zeroDivisionError
  else
    Except.ok
      { tool := tool
        weighted_score := formatFixed weighted_total 3
        normalized_percent := formatFixed (raw_total / max_raw * 100) 1
        notes := (row.lookup "notes").getD "" }

/-- Effectful `map` over a list: the Python pattern of building a list in a
loop where each step may raise, aborting on the first failure. -/
def exMap (f : α → Except Err β) : List α → Except Err (List β)
  | [] => Except.ok []
  | a :: as => do
    let b ← f a
    let bs ← exMap f as
    Except.ok (b :: bs)

/-- The decorate step of `results.sort(key=lambda r: float(r["weighted_score"]), ...)`:
CPython computes every key up front, raising if any key call raises. -/
def sortKey (r : Result) : Except Err (ℚ × Result) :=
  match parseFloatQ r.weighted_score with
  | some k => Except.ok (k, r)
  | none =>
    Except.error (Err.valueError ("could not convert string to float: " ++ r.weighted_score))

/-- Comparison used for the ranking: `reverse=True` on the numeric key, i.e.
non-strict descending order of the decorated keys. -/
def resultGe (a b : ℚ × Result) : Prop := b.1 ≤ a.1

instance : DecidableRel resultGe := fun a b => inferInstanceAs (Decidable (b.1 ≤ a.1))

instance : IsTotal (ℚ × Result) resultGe := ⟨fun a b => le_total b.1 a.1⟩

instance : IsTrans (ℚ × Result) resultGe := ⟨fun _ _ _ h1 h2 => le_trans h2 h1⟩

/-- Embeds `compute_results` (evaluate.py lines 75-110): score every row in
input order, then stable-sort descending by the numeric value of the
formatted `weighted_score` field. Python's `list.sort` is a stable sort;
it is modelled by `List.insertionSort` on the decorated list, which computes
the same list as any stable sort by the same key. -/
def compute_results (criteria : List Criterion) (rows : List Row)
    (min_score max_score : ℤ) : Except Err (List Result) := do
  let results ← exMap (scoreRow criteria min_score max_score) rows
  let keyed ← exMap sortKey results
  Except.ok ((keyed.insertionSort resultGe).map Prod.snd)

/-- Minimal-quoting escape of one CSV field, as `csv.writer` does by default. -/
def csvField (s : String) : String :=
  if s.data.any (fun c => c = ',' ∨ c = '"' ∨ c = '\n' ∨ c = '\r') then
    "\"" ++ ⟨s.data.foldr (fun c acc => if c = '"' then '"' :: '"' :: acc else c :: acc) []⟩ ++ "\""
  else s

/-- One CSV record with the default `\r\n` line terminator of the `csv` module. -/
def csvLine (fields : List String) : String :=
  String.intercalate "," (fields.map csvField) ++ "\r\n"

/-- Embeds `write_csv` (evaluate.py lines 112-123) as a pure rendering of the
file content: header row then one record per result, in ranked order. -/
def write_csv (results : List Result) : String :=
  csvLine ["tool", "weighted_score", "normalized_percent", "notes"] ++
    String.join (results.map fun r =>
      csvLine [r.tool, r.weighted_score, r.normalized_percent, r.notes])

/-- The enumerated row lines of `write_markdown`, with 1-based rank `i`. -/
def mdRows : ℕ → List Result → List String
  | _, [] => []
  | i, r :: rs =>
    ("| " ++ toString i ++ " | " ++ r.tool ++ " | " ++ r.weighted_score ++ " | " ++
        r.normalized_percent ++ " | " ++ r.notes ++ " |\n") :: mdRows (i + 1) rs

/-- Embeds `write_markdown` (evaluate.py lines 125-144) as a pure rendering of
the file content: title, table header, separator, then the ranked rows. -/
def write_markdown (results : List Result) : String :=
  String.join
    (["# Tool Evaluation Results\n\n",
      "| Rank | Tool | Weighted Score | Normalized (0-100) | Notes | \n",
      "|---:|---|---:|---:|---|\n"] ++ mdRows 1 results)

/-- Embeds `main` of evaluate.py ( lines 146-154) over already-read file contents:
load the rubric, load the scores, compute the ranked results, and only then
render both output artifacts. The pair holds the contents of
`output/results.csv` and `output/results.md`. -/
def main' (rubric : RubricData) (scores : List Row) : Except Err (String × String) := do
  let (criteria, min_score, max_score) ← load_criteria rubric
  let rows ← load_scores scores
  let results ← compute_results criteria rows min_score max_score
  Except.ok (write_csv results, write_markdown results)

/-- Sum of the raw weights of a rubric document, before any validation. -/
def totalWeight (data : RubricData) : ℚ :=
  (data.criteria.map RawCriterion.weight).sum

/-- Numeric value of the `weighted_score` field of a result, i.e. the sort key
`float(r["weighted_score"])`; made total with default `0`, and used only in
statements about results whose field is known to parse. -/
def numericKey (r : Result) : ℚ := (parseFloatQ r.weighted_score).getD 0

lemma mapped_weights (data : RubricData) :
    ((data.criteria.map fun c =>
        ({ cid := pyStrip c.id, name := pyStrip c.name, weight := c.weight } : Criterion)).map
      Criterion.weight).sum = totalWeight data := by
  simp only [totalWeight, List.map_map]
  rfl

lemma mapped_ids (data : RubricData) :
    ((data.criteria.map fun c =>
        ({ cid := pyStrip c.id, name := pyStrip c.name, weight := c.weight } : Criterion)).map
      Criterion.cid) = data.criteria.map fun c => pyStrip c.id := by
  simp only [List.map_map]
  rfl

lemma dedup_length_ne {α : Type} [DecidableEq α] {l : List α} (h : ¬ l.Nodup) :
    l.dedup.length ≠ l.length := by
  intro hlen
  exact h ((l.dedup_sublist.eq_of_length hlen) ▸ l.nodup_dedup)

lemma load_criteria_dup_error (data : RubricData)
    (hdup : ¬ (data.criteria.map fun c => pyStrip c.id).Nodup) :
    (∃ e, load_criteria data = Except.error e) ∧
    (|totalWeight data - 1| ≤ 1e-5 →
      load_criteria data = Except.error (Err.valueError "Criterion IDs must be unique")) := by
  have hw := mapped_weights data
  have hi := mapped_ids data
  rcases le_or_lt |totalWeight data - 1| 1e-5 with hle | hgt
  · have hload : load_criteria data =
        Except.error (Err.valueError "Criterion IDs must be unique") := by
      unfold load_criteria
      rw [if_neg (by rw [hw]; exact not_lt.mpr hle), if_pos (by rw [hi]; exact dedup_length_ne hdup)]
    exact ⟨⟨_, hload⟩, fun _ => hload⟩
  · refine ⟨⟨Err.valueError "Criteria weights must sum to 1.0", ?_⟩,
      fun hle => absurd hgt (not_lt.mpr hle)⟩
    unfold load_criteria
    rw [if_pos (by rw [hw]; exact hgt)]

/-- C1: for every criteria list, loading succeeds only if the absolute
difference between the sum of all weights and 1.0 is at most 1e-5; any list
whose weights sum outside that tolerance is rejected with the configuration
error "Criteria weights must sum to 1.0". -/
theorem C1_weight_sum_tolerance (data : RubricData) :
    (∀ out, load_criteria data = Except.ok out → |totalWeight data - 1| ≤ 1e-5) ∧
    (|totalWeight data - 1| > 1e-5 →
      load_criteria data = Except.error (Err.valueError "Criteria weights must sum to 1.0")) := by
  have hw := mapped_weights data
  constructor
  · intro out h
    by_contra hgt
    push_neg at hgt
    unfold load_criteria at h
    rw [if_pos (by rw [hw]; exact hgt)] at h
    exact Except.noConfusion h
  · intro hgt
    unfold load_criteria
    rw [if_pos (by rw [hw]; exact hgt)]

/-- Witness for C1 at a concrete rubric whose weights sum to 0.98
(the claim's own example of a rejected sum). -/
theorem C1_weight_sum_tolerance_witness :
    load_criteria ⟨none, [⟨"a", "x", 0.49⟩, ⟨"b", "y", 0.49⟩]⟩ =
      Except.error (Err.valueError "Criteria weights must sum to 1.0") :=
  (C1_weight_sum_tolerance _).2 (by decide)

/-- C2: a raw score whose parsed value equals min_score or max_score is
accepted (inclusive bounds), and a parsed value one unit below min_score or
one unit above max_score is rejected with the score-out-of-range error. -/
theorem C2_parse_score_boundaries (value : String) (mn mx : ℤ) (q : ℚ)
    (hp : parseFloatQ value = some q) (hscale : mn ≤ mx) :
    ((q = (mn : ℚ) ∨ q = (mx : ℚ)) → parse_score value mn mx = Except.ok q) ∧
    ((q = (mn : ℚ) - 1 ∨ q = (mx : ℚ) + 1) →
      parse_score value mn mx =
        Except.error (Err.valueError ("Score " ++ toString q ++ " out of range"))) := by
  have hc : (mn : ℚ) ≤ (mx : ℚ) := by exact_mod_cast hscale
  have hps : parse_score value mn mx =
      if ¬((mn : ℚ) ≤ q ∧ q ≤ (mx : ℚ)) then
        Except.error (Err.valueError ("Score " ++ toString q ++ " out of range"))
      else Except.ok q := by
    simp only [parse_score, hp]
  rw [hps]
  constructor
  · rintro (rfl | rfl)
    · rw [if_neg (not_not_intro ⟨le_refl _, hc⟩)]
    · rw [if_neg (not_not_intro ⟨hc, le_refl _⟩)]
  · rintro (rfl | rfl)
    · rw [if_pos (fun h => absurd h.1 (by linarith))]
    · rw [if_pos (fun h => absurd h.2 (by linarith))]

/-- Witness for C2 on the default 1..5 scale: the boundary value 1 is
accepted and the value 6 (one unit above the maximum) is rejected. -/
theorem C2_parse_score_boundaries_witness :
    parse_score "1" 1 5 = Except.ok 1 ∧
    parse_score "6" 1 5 =
      Except.error (Err.valueError ("Score " ++ toString (6 : ℚ) ++ " out of range")) :=
  ⟨(C2_parse_score_boundaries "1" 1 5 1 (by decide) (by decide)).1 (Or.inl (by norm_num)),
    (C2_parse_score_boundaries "6" 1 5 6 (by decide) (by decide)).2 (Or.inr (by norm_num))⟩

/-- C3: on criteria a (weight 0.6) and b (weight 0.4), scale 1..5, and the
single row tool=X, a=5, b=1, the scorer emits exactly one result with
weighted_score "3.400" and normalized_percent "60.0". -/
theorem C3_round_trip :
    compute_results [⟨"a", "a", 0.6⟩, ⟨"b", "b", 0.4⟩]
      [[("tool", "X"), ("a", "5"), ("b", "1")]] 1 5 =
      Except.ok [⟨"X", "3.400", "60.0", ""⟩] := by decide

/-- Counterexample for C6 as stated: a criteria list with a duplicated id
whose weights sum to 0.6 is rejected with the weight-sum error, not with
"criterion IDs must be unique". -/
theorem C6_counterexample :
    ¬ (([⟨"a", "x", 0.3⟩, ⟨"a", "y", 0.3⟩] : List RawCriterion).map
        fun c => pyStrip c.id).Nodup ∧
    load_criteria ⟨none, [⟨"a", "x", 0.3⟩, ⟨"a", "y", 0.3⟩]⟩ =
      Except.error (Err.valueError "Criteria weights must sum to 1.0") ∧
    Err.valueError "Criteria weights must sum to 1.0" ≠
      Err.valueError "Criterion IDs must be unique" := by decide

/-- C6 amended: a criteria list with a duplicated (trimmed) id always fails to
load, and it fails with the error "Criterion IDs must be unique" whenever the
weights pass the weight-sum check (which runs first); with invalid weights the
weight-sum error is reported instead. -/
theorem C6_duplicate_ids (data : RubricData)
    (hdup : ¬ (data.criteria.map fun c => pyStrip c.id).Nodup) :
    (∃ e, load_criteria data = Except.error e) ∧
    (|totalWeight data - 1| ≤ 1e-5 →
      load_criteria data = Except.error (Err.valueError "Criterion IDs must be unique")) :=
  load_criteria_dup_error data hdup

/-- Witness for the amended C6 at a concrete duplicated rubric with valid
weights. -/
theorem C6_duplicate_ids_witness :
    load_criteria ⟨none, [⟨"a", "x", 0.5⟩, ⟨"a", "y", 0.5⟩]⟩ =
      Except.error (Err.valueError "Criterion IDs must be unique") :=
  (C6_duplicate_ids ⟨none, [⟨"a", "x", 0.5⟩, ⟨"a", "y", 0.5⟩]⟩ (by decide)).2 (by decide)

/-- Counterexample for C7 as stated: the loader's message for an empty scores
source is "scores.csv is empty", not "scores source is empty". -/
theorem C7_counterexample :
    load_scores [] = Except.error (Err.valueError "scores.csv is empty") ∧
    Err.valueError "scores.csv is empty" ≠ Err.valueError "scores source is empty" := by decide

/-- C7 amended: a scores source with zero data rows fails to load with the
error message "scores.csv is empty" (so no rows are returned). -/
theorem C7_empty_scores :
    load_scores ([] : List Row) = Except.error (Err.valueError "scores.csv is empty") := by decide

lemma exbind_ok {α β : Type} (a : α) (f : α → Except Err β) :
    (Except.ok a : Except Err α) >>= f = f a := rfl

lemma exbind_error {α β : Type} (e : Err) (f : α → Except Err β) :
    (Except.error e : Except Err α) >>= f = Except.error e := rfl

lemma parse_score_of_max {s : String} {mn mx : ℤ} (hp : parseFloatQ s = some (mx : ℚ))
    (hmn : mn ≤ mx) : parse_score s mn mx = Except.ok (mx : ℚ) := by
  simp only [parse_score, hp]
  rw [if_neg (not_not_intro ⟨by exact_mod_cast hmn, le_refl _⟩)]

lemma accumScores_all_max (mn mx : ℤ) (row : Row) (hmn : mn ≤ mx) :
    ∀ (cs : List Criterion) (acc : ℚ × ℚ × ℚ),
      (∀ c ∈ cs, ∃ s, row.lookup c.cid = some s ∧ parseFloatQ s = some (mx : ℚ)) →
      accumScores mn mx row cs acc =
        Except.ok (acc.1 + (mx : ℚ) * (cs.map Criterion.weight).sum,
          acc.2.1 + (cs.length : ℚ) * (mx : ℚ), acc.2.2 + (cs.length : ℚ) * (mx : ℚ))
  | [], acc, _ => by
    simp [accumScores]
  | c :: cs, (w, r, m), h => by
    obtain ⟨s, hs, hp⟩ := h c (List.mem_cons_self c cs)
    have ih := accumScores_all_max mn mx row hmn cs
      (w + (mx : ℚ) * c.weight, r + (mx : ℚ), m + (mx : ℚ))
      (fun c' hc' => h c' (List.mem_cons_of_mem c hc'))
    simp only [accumScores, hs, exbind_ok, parse_score_of_max hp hmn]
    rw [ih]
    simp only [Except.ok.injEq, Prod.mk.injEq, List.map_cons, List.sum_cons, List.length_cons]
    push_cast
    refine ⟨by ring, by ring, by ring⟩

/-- Counterexample for C4 as stated: the rubric with the single criterion a of
weight 1.000008 passes the loader's validation (the deviation 8e-6 is within
the 1e-5 tolerance), yet a row scoring the maximum 5 on a gets the computed
weighted total 5.00004, which is not max_score exactly. -/
theorem C4_counterexample :
    load_criteria ⟨none, [⟨"a", "a", 1.000008⟩]⟩ =
      Except.ok ([⟨"a", "a", 1.000008⟩], 1, 5) ∧
    accumScores 1 5 [("tool", "X"), ("a", "5")] [⟨"a", "a", 1.000008⟩] (0, 0, 0) =
      Except.ok (5.00004, 5, 5) ∧
    (5.00004 : ℚ) ≠ 5 := by decide

/-- C4 amended: when the weights sum to 1.0 exactly (not merely within the
1e-5 tolerance), the scale is non-degenerate (min_score ≤ max_score,
max_score ≠ 0) and the row scores max_score on every criterion, the computed
weighted total equals max_score exactly and the computed normalized percent is
100.0 (the emitted result carries normalized_percent "100.0"). -/
theorem C4_max_scores (criteria : List Criterion) (mn mx : ℤ) (row : Row) (t : String)
    (htool : row.lookup "tool" = some t)
    (hw : (criteria.map Criterion.weight).sum = 1)
    (hmn : mn ≤ mx) (hmx : mx ≠ 0)
    (hmax : ∀ c ∈ criteria, ∃ s, row.lookup c.cid = some s ∧ parseFloatQ s = some (mx : ℚ)) :
    accumScores mn mx row criteria (0, 0, 0) =
      Except.ok ((mx : ℚ), (criteria.length : ℚ) * (mx : ℚ), (criteria.length : ℚ) * (mx : ℚ)) ∧
    ∃ res, scoreRow criteria mn mx row = Except.ok res ∧
      res.normalized_percent = "100.0" := by
  have hlen : criteria.length ≠ 0 := by
    intro h0
    rw [List.length_eq_zero] at h0
    rw [h0] at hw
    simp at hw
  have hne : ((criteria.length : ℚ) * (mx : ℚ)) ≠ 0 :=
    mul_ne_zero (Nat.cast_ne_zero.mpr hlen) (Int.cast_ne_zero.mpr hmx)
  have hacc := accumScores_all_max mn mx row hmn criteria (0, 0, 0) hmax
  rw [hw, mul_one] at hacc
  simp only [zero_add] at hacc
  have hsr : scoreRow criteria mn mx row = Except.ok
      { tool := pyStrip t
        weighted_score := formatFixed (mx : ℚ) 3
        normalized_percent :=
          formatFixed
            ((criteria.length : ℚ) * (mx : ℚ) / ((criteria.length : ℚ) * (mx : ℚ)) * 100) 1
        notes := (row.lookup "notes").getD "" } := by
    simp only [scoreRow, htool, hacc, exbind_ok]
    rw [if_neg hne]
  refine ⟨hacc, ⟨_, hsr, ?_⟩⟩
  show formatFixed ((criteria.length : ℚ) * (mx : ℚ) / ((criteria.length : ℚ) * (mx : ℚ)) * 100) 1 =
    "100.0"
  rw [div_self hne, one_mul]
  decide

/-- Witness for the amended C4: two equally weighted criteria on the 1..5
scale and a row scoring 5 on both; the weighted total is exactly 5 and the
normalized percent is 100.0. -/
theorem C4_max_scores_witness :
    accumScores 1 5 [("tool", "Z"), ("a", "5"), ("b", "5")]
        [⟨"a", "a", 0.5⟩, ⟨"b", "b", 0.5⟩] (0, 0, 0) =
      Except.ok ((5 : ℚ), (2 : ℚ) * (5 : ℚ), (2 : ℚ) * (5 : ℚ)) ∧
    ∃ res, scoreRow [⟨"a", "a", 0.5⟩, ⟨"b", "b", 0.5⟩] 1 5
        [("tool", "Z"), ("a", "5"), ("b", "5")] = Except.ok res ∧
      res.normalized_percent = "100.0" :=
  C4_max_scores [⟨"a", "a", 0.5⟩, ⟨"b", "b", 0.5⟩] 1 5
    [("tool", "Z"), ("a", "5"), ("b", "5")] "Z" (by decide) (by decide) (by decide) (by decide)
    (by
      intro c hc
      rcases List.mem_cons.mp hc with rfl | hc
      · exact ⟨"5", by decide, by decide⟩
      rcases List.mem_cons.mp hc with rfl | hc
      · exact ⟨"5", by decide, by decide⟩
      · exact absurd hc (List.not_mem_nil c))

/-- C8: any failure during scoring aborts the whole run with no partial
results: the pipeline propagates the scoring error unchanged, and the two
report renderings exist only when the compute step succeeded (first
conjunct: error propagation; second: every successful run's output pair is
exactly the two renderings of a successfully computed result list). -/
theorem C8_fail_fast (rubric : RubricData) (scores : List Row) :
    (∀ criteria mn mx rows e,
      load_criteria rubric = Except.ok (criteria, mn, mx) →
      load_scores scores = Except.ok rows →
      compute_results criteria rows mn mx = Except.error e →
      main' rubric scores = Except.error e) ∧
    (∀ out, main' rubric scores = Except.ok out →
      ∃ criteria mn mx rows results,
        load_criteria rubric = Except.ok (criteria, mn, mx) ∧
        load_scores scores = Except.ok rows ∧
        compute_results criteria rows mn mx = Except.ok results ∧
        out = (write_csv results, write_markdown results)) := by
  constructor
  · intro criteria mn mx rows e h1 h2 h3
    simp only [main', h1, h2, h3, exbind_ok, exbind_error]
  · intro out h
    unfold main' at h
    cases hl : load_criteria rubric with
    | error e =>
      simp only [hl, exbind_error] at h
      exact Except.noConfusion h
    | ok v =>
      obtain ⟨criteria, mn, mx⟩ := v
      simp only [hl, exbind_ok] at h
      cases hs : load_scores scores with
      | error e =>
        simp only [hs, exbind_error] at h
        exact Except.noConfusion h
      | ok rows =>
        simp only [hs, exbind_ok] at h
        cases hc : compute_results criteria rows mn mx with
        | error e =>
          simp only [hc, exbind_error] at h
          exact Except.noConfusion h
        | ok results =>
          simp only [hc, exbind_ok] at h
          exact ⟨criteria, mn, mx, rows, results, rfl, rfl, hc,
            (Except.ok.inj h).symm⟩

/-- Witness for C8: a run whose only row scores 9 on the 1..5 scale aborts
with the out-of-range error and produces no output pair. -/
theorem C8_fail_fast_witness :
    main' ⟨none, [⟨"a", "x", 1⟩]⟩ [[("tool", "X"), ("a", "9")]] =
      Except.error (Err.valueError ("Score " ++ toString (9 : ℚ) ++ " out of range")) :=
  (C8_fail_fast ⟨none, [⟨"a", "x", 1⟩]⟩ [[("tool", "X"), ("a", "9")]]).1
    [⟨"a", "x", 1⟩] 1 5 [[("tool", "X"), ("a", "9")]] _
    (by decide) (by decide) (by decide)

/-- C10: criterion ids are trimmed before the uniqueness check, so two rubric
entries whose ids agree after stripping surrounding whitespace make loading
fail. -/
theorem C10_trimmed_duplicate_ids (data : RubricData)
    (i j : Fin data.criteria.length) (hne : i ≠ j)
    (heq : pyStrip (data.criteria.get i).id = pyStrip (data.criteria.get j).id) :
    ∃ e, load_criteria data = Except.error e := by
  apply (load_criteria_dup_error data ?_).1
  intro hnd
  have hinj := List.nodup_iff_injective_get.mp hnd
  have hlen : (data.criteria.map fun c => pyStrip c.id).length = data.criteria.length :=
    List.length_map _ _
  have h1 : (data.criteria.map fun c => pyStrip c.id).get ⟨i.1, by rw [hlen]; exact i.2⟩ =
      pyStrip (data.criteria.get i).id := by
    simp [List.get_map]
  have h2 : (data.criteria.map fun c => pyStrip c.id).get ⟨j.1, by rw [hlen]; exact j.2⟩ =
      pyStrip (data.criteria.get j).id := by
    simp [List.get_map]
  have := hinj (h1.trans (heq.trans h2.symm))
  have hval : i.1 = j.1 := by simpa [Fin.mk.injEq] using this
  exact hne (Fin.ext hval)

/-- Witness for C10: the ids "accuracy" and " accuracy " differ only in
surrounding whitespace and are rejected as duplicates. -/
theorem C10_trimmed_duplicate_ids_witness :
    ∃ e, load_criteria ⟨none, [⟨"accuracy", "x", 0.5⟩, ⟨" accuracy ", "y", 0.5⟩]⟩ =
      Except.error e :=
  C10_trimmed_duplicate_ids ⟨none, [⟨"accuracy", "x", 0.5⟩, ⟨" accuracy ", "y", 0.5⟩]⟩
    ⟨0, by decide⟩ ⟨1, by decide⟩ (by decide) (by decide)

lemma parse_score_error_valueError {s : String} {mn mx : ℤ} {e : Err}
    (h : parse_score s mn mx = Except.error e) : ∃ m, e = Err.valueError m := by
  unfold parse_score at h
  cases hp : parseFloatQ s with
  | none =>
    simp only [hp] at h
    exact ⟨_, (Except.error.inj h).symm⟩
  | some q =>
    simp only [hp] at h
    by_cases hc : ¬((mn : ℚ) ≤ q ∧ q ≤ (mx : ℚ))
    · rw [if_pos hc] at h
      exact ⟨_, (Except.error.inj h).symm⟩
    · rw [if_neg hc] at h
      exact Except.noConfusion h

lemma accumScores_error_not_zeroDiv (mn mx : ℤ) (row : Row) :
    ∀ (cs : List Criterion) (acc : ℚ × ℚ × ℚ),
      accumScores mn mx row cs acc ≠ Except.error Err.zeroDivisionError
  | [], acc => by
    simp [accumScores]
  | c :: cs, (w, r, m) => by
    intro h
    simp only [accumScores] at h
    cases hl : row.lookup c.cid with
    | none =>
      simp only [hl, exbind_error] at h
      exact Err.noConfusion (Except.error.inj h)
    | some v =>
      simp only [hl, exbind_ok] at h
      cases hp : parse_score v mn mx with
      | error e =>
        simp only [hp, exbind_error] at h
        obtain ⟨msg, rfl⟩ := parse_score_error_valueError hp
        exact Err.noConfusion (Except.error.inj h)
      | ok q =>
        simp only [hp, exbind_ok] at h
        exact accumScores_error_not_zeroDiv mn mx row cs _ h

lemma accumScores_ok_max_raw (mn mx : ℤ) (row : Row) :
    ∀ (cs : List Criterion) (acc out : ℚ × ℚ × ℚ),
      accumScores mn mx row cs acc = Except.ok out →
      out.2.2 = acc.2.2 + (cs.length : ℚ) * (mx : ℚ)
  | [], acc, out => by
    intro h
    simp only [accumScores] at h
    rw [← Except.ok.inj h]
    simp
  | c :: cs, (w, r, m), out => by
    intro h
    simp only [accumScores] at h
    cases hl : row.lookup c.cid with
    | none =>
      simp only [hl, exbind_error] at h
      exact Except.noConfusion h
    | some v =>
      simp only [hl, exbind_ok] at h
      cases hp : parse_score v mn mx with
      | error e =>
        simp only [hp, exbind_error] at h
        exact Except.noConfusion h
      | ok q =>
        simp only [hp, exbind_ok] at h
        have := accumScores_ok_max_raw mn mx row cs _ out h
        rw [this]
        push_cast [List.length_cons]
        ring

lemma scoreRow_not_zeroDiv {criteria : List Criterion} {mn mx : ℤ}
    (hne : criteria ≠ []) (hmx : mx ≠ 0) (row : Row) :
    scoreRow criteria mn mx row ≠ Except.error Err.zeroDivisionError := by
  intro h
  unfold scoreRow at h
  cases ht : row.lookup "tool" with
  | none =>
    simp only [ht, exbind_error] at h
    exact Err.noConfusion (Except.error.inj h)
  | some t =>
    simp only [ht, exbind_ok] at h
    cases ha : accumScores mn mx row criteria (0, 0, 0) with
    | error e =>
      simp only [ha, exbind_error] at h
      exact accumScores_error_not_zeroDiv mn mx row criteria (0, 0, 0) ((Except.error.inj h) ▸ ha)
    | ok out =>
      simp only [ha, exbind_ok] at h
      obtain ⟨w, r, m⟩ := out
      have hm : m = (criteria.length : ℚ) * (mx : ℚ) := by
        have := accumScores_ok_max_raw mn mx row criteria (0, 0, 0) (w, r, m) ha
        simpa using this
      have hm0 : m ≠ 0 := by
        rw [hm]
        exact mul_ne_zero
          (Nat.cast_ne_zero.mpr (fun h0 => hne (List.length_eq_zero.mp h0)))
          (Int.cast_ne_zero.mpr hmx)
      rw [if_neg hm0] at h
      exact Except.noConfusion h

lemma exMap_error_mem {α β : Type} {f : α → Except Err β} :
    ∀ {l : List α} {e : Err}, exMap f l = Except.error e → ∃ a ∈ l, f a = Except.error e
  | [], e => by
    intro h
    exact Except.noConfusion h
  | a :: as, e => by
    intro h
    simp only [exMap] at h
    cases hf : f a with
    | error e' =>
      simp only [hf, exbind_error] at h
      exact ⟨a, List.mem_cons_self a as, (Except.error.inj h) ▸ hf⟩
    | ok b =>
      simp only [hf, exbind_ok] at h
      cases hm : exMap f as with
      | error e' =>
        simp only [hm, exbind_error] at h
        obtain ⟨a', ha', hfa'⟩ := exMap_error_mem ((Except.error.inj h) ▸ hm)
        exact ⟨a', List.mem_cons_of_mem a ha', hfa'⟩
      | ok bs =>
        simp only [hm, exbind_ok] at h
        exact Except.noConfusion h

lemma sortKey_error_valueError {r : Result} {e : Err}
    (h : sortKey r = Except.error e) : ∃ m, e = Err.valueError m := by
  unfold sortKey at h
  cases hp : parseFloatQ r.weighted_score with
  | none =>
    rw [hp] at h
    exact ⟨_, (Except.error.inj h).symm⟩
  | some k =>
    rw [hp] at h
    exact Except.noConfusion h

lemma load_criteria_ok_nonempty {data : RubricData} {criteria : List Criterion} {mn mx : ℤ}
    (h : load_criteria data = Except.ok (criteria, mn, mx)) : criteria ≠ [] := by
  unfold load_criteria at h
  by_cases h1 : |((data.criteria.map fun c =>
      ({ cid := pyStrip c.id, name := pyStrip c.name, weight := c.weight } : Criterion)).map
        Criterion.weight).sum - 1| > 1e-5
  · rw [if_pos h1] at h
    exact Except.noConfusion h
  · rw [if_neg h1] at h
    by_cases h2 : (((data.criteria.map fun c =>
        ({ cid := pyStrip c.id, name := pyStrip c.name, weight := c.weight } : Criterion)).map
          Criterion.cid).dedup.length ≠
        ((data.criteria.map fun c =>
          ({ cid := pyStrip c.id, name := pyStrip c.name, weight := c.weight } : Criterion)).map
            Criterion.cid).length)
    · rw [if_pos h2] at h
      exact Except.noConfusion h
    · rw [if_neg h2] at h
      have hcrit := congrArg Prod.fst (Except.ok.inj h)
      intro hnil
      rw [hnil] at hcrit
      rw [List.map_eq_nil] at hcrit
      rw [hcrit] at h1
      simp only [List.map_nil, List.sum_nil, zero_sub, abs_neg, abs_one] at h1
      exact h1 (by norm_num)

/-- Counterexample for C9 as stated: the rubric with one criterion of weight
1.0 and scale min=-5, max=0 passes the loader's validation, yet scoring the
valid row tool=X, a=0 divides by max_raw = 1 * 0 = 0 and raises
ZeroDivisionError. -/
theorem C9_counterexample :
    load_criteria ⟨some ⟨some (-5), some 0⟩, [⟨"a", "a", 1⟩]⟩ =
      Except.ok ([⟨"a", "a", 1⟩], -5, 0) ∧
    compute_results [⟨"a", "a", 1⟩] [[("tool", "X"), ("a", "0")]] (-5) 0 =
      Except.error Err.zeroDivisionError := by decide

/-- C9 amended: under the loader's validation (which forces a non-empty
criteria list) and the additional hypothesis that max_score is non-zero, the
scorer never raises ZeroDivisionError on the division by max_raw, for any
rows. -/
theorem C9_no_div_by_zero (data : RubricData) (criteria : List Criterion)
    (mn mx : ℤ) (rows : List Row)
    (hload : load_criteria data = Except.ok (criteria, mn, mx)) (hmx : mx ≠ 0) :
    compute_results criteria rows mn mx ≠ Except.error Err.zeroDivisionError := by
  have hne : criteria ≠ [] := load_criteria_ok_nonempty hload
  intro h
  unfold compute_results at h
  cases h1 : exMap (scoreRow criteria mn mx) rows with
  | error e =>
    simp only [h1, exbind_error] at h
    obtain ⟨row, _, hrow⟩ := exMap_error_mem ((Except.error.inj h) ▸ h1)
    exact scoreRow_not_zeroDiv hne hmx row hrow
  | ok results =>
    simp only [h1, exbind_ok] at h
    cases h2 : exMap sortKey results with
    | error e =>
      simp only [h2, exbind_error] at h
      obtain ⟨r, _, hr⟩ := exMap_error_mem ((Except.error.inj h) ▸ h2)
      obtain ⟨msg, hmsg⟩ := sortKey_error_valueError hr
      exact Err.noConfusion hmsg
    | ok keyed =>
      simp only [h2, exbind_ok] at h
      exact Except.noConfusion h

/-- Witness for the amended C9: the default rubric with a single criterion of
weight 1 and the 1..5 scale never produces ZeroDivisionError on this row. -/
theorem C9_no_div_by_zero_witness :
    compute_results [⟨"a", "a", 1⟩] [[("tool", "X"), ("a", "3")]] 1 5 ≠
      Except.error Err.zeroDivisionError :=
  C9_no_div_by_zero ⟨none, [⟨"a", "a", 1⟩]⟩ [⟨"a", "a", 1⟩] 1 5
    [[("tool", "X"), ("a", "3")]] (by decide) (by decide)

lemma exMap_ok_mem {α β : Type} {f : α → Except Err β} :
    ∀ (l : List α) (l2 : List β), exMap f l = Except.ok l2 →
      ∀ b ∈ l2, ∃ a ∈ l, f a = Except.ok b
  | [], l2 => by
    intro h b hb
    simp only [exMap] at h
    rw [← Except.ok.inj h] at hb
    exact absurd hb (List.not_mem_nil b)
  | a :: as, l2 => by
    intro h b hb
    simp only [exMap] at h
    cases hf : f a with
    | error e =>
      simp only [hf, exbind_error] at h
      exact Except.noConfusion h
    | ok b0 =>
      simp only [hf, exbind_ok] at h
      cases hm : exMap f as with
      | error e =>
        simp only [hm, exbind_error] at h
        exact Except.noConfusion h
      | ok bs =>
        simp only [hm, exbind_ok] at h
        rw [← Except.ok.inj h] at hb
        rcases List.mem_cons.mp hb with rfl | hb2
        · exact ⟨a, List.mem_cons_self a as, hf⟩
        · obtain ⟨a2, ha2, hfa2⟩ := exMap_ok_mem as bs hm b hb2
          exact ⟨a2, List.mem_cons_of_mem a ha2, hfa2⟩

lemma sortKey_ok {r : Result} {p : ℚ × Result} (h : sortKey r = Except.ok p) :
    parseFloatQ p.2.weighted_score = some p.1 ∧ p.2 = r := by
  unfold sortKey at h
  cases hp : parseFloatQ r.weighted_score with
  | none =>
    simp only [hp] at h
    exact Except.noConfusion h
  | some k =>
    simp only [hp] at h
    rw [← Except.ok.inj h]
    exact ⟨hp, rfl⟩

lemma exMap_sortKey_map_snd :
    ∀ (l : List Result) (l2 : List (ℚ × Result)),
      exMap sortKey l = Except.ok l2 → l2.map Prod.snd = l
  | [], l2 => by
    intro h
    simp only [exMap] at h
    rw [← Except.ok.inj h]
    rfl
  | r :: rs, l2 => by
    intro h
    simp only [exMap] at h
    cases hf : sortKey r with
    | error e =>
      simp only [hf, exbind_error] at h
      exact Except.noConfusion h
    | ok p =>
      simp only [hf, exbind_ok] at h
      cases hm : exMap sortKey rs with
      | error e =>
        simp only [hm, exbind_error] at h
        exact Except.noConfusion h
      | ok ps =>
        simp only [hm, exbind_ok] at h
        rw [← Except.ok.inj h]
        simp only [List.map_cons]
        rw [(sortKey_ok hf).2, exMap_sortKey_map_snd rs ps hm]

/-- C5: the scorer's output is the decorated stable sort of the per-row
results: it is pairwise non-increasing in the numeric value of
weighted_score, and for every key value the results carrying that value
appear in exactly their input order (the filtered subsequences of the output
and of the unsorted per-row results coincide). -/
theorem C5_stable_descending_sort (criteria : List Criterion) (rows : List Row)
    (mn mx : ℤ) (out : List Result)
    (hout : compute_results criteria rows mn mx = Except.ok out) :
    ∃ pre keyed,
      exMap (scoreRow criteria mn mx) rows = Except.ok pre ∧
      exMap sortKey pre = Except.ok keyed ∧
      out = (keyed.insertionSort resultGe).map Prod.snd ∧
      out.Pairwise (fun a b => numericKey b ≤ numericKey a) ∧
      ∀ k : ℚ, out.filter (fun r => decide (numericKey r = k)) =
        pre.filter (fun r => decide (numericKey r = k)) := by
  unfold compute_results at hout
  cases h1 : exMap (scoreRow criteria mn mx) rows with
  | error e =>
    simp only [h1, exbind_error] at hout
    exact Except.noConfusion hout
  | ok pre =>
    simp only [h1, exbind_ok] at hout
    cases h2 : exMap sortKey pre with
    | error e =>
      simp only [h2, exbind_error] at hout
      exact Except.noConfusion hout
    | ok keyed =>
      simp only [h2, exbind_ok] at hout
      have hout2 : out = (keyed.insertionSort resultGe).map Prod.snd :=
        (Except.ok.inj hout).symm
      have hnk : ∀ p ∈ keyed, numericKey p.2 = p.1 := by
        intro p hp
        obtain ⟨r, _, hr⟩ := exMap_ok_mem pre keyed h2 p hp
        unfold numericKey
        rw [(sortKey_ok hr).1]
        rfl
      have hsnd : keyed.map Prod.snd = pre := exMap_sortKey_map_snd pre keyed h2
      have hperm : (keyed.insertionSort resultGe).Perm keyed :=
        List.perm_insertionSort resultGe keyed
      have hmemS : ∀ p ∈ keyed.insertionSort resultGe, p ∈ keyed :=
        fun p hp => hperm.mem_iff.mp hp
      have hpw : (keyed.insertionSort resultGe).Pairwise
          (fun p q => numericKey q.2 ≤ numericKey p.2) := by
        refine List.Pairwise.imp_of_mem ?_ (List.sorted_insertionSort resultGe keyed)
        intro a b ha hb hab
        rw [hnk a (hmemS a ha), hnk b (hmemS b hb)]
        exact hab
      have hout_pw : out.Pairwise (fun a b => numericKey b ≤ numericKey a) := by
        rw [hout2]
        exact List.pairwise_map.mpr hpw
      refine ⟨pre, keyed, rfl, h2, hout2, hout_pw, ?_⟩
      intro k
      have e1 : out.filter (fun r => decide (numericKey r = k)) =
          ((keyed.insertionSort resultGe).filter fun p => decide (numericKey p.2 = k)).map
            Prod.snd := by
        rw [hout2, List.filter_map]
        rfl
      have e2 : pre.filter (fun r => decide (numericKey r = k)) =
          (keyed.filter fun p => decide (numericKey p.2 = k)).map Prod.snd := by
        rw [← hsnd, List.filter_map]
        rfl
      have hQmem : ∀ p ∈ keyed.filter (fun p => decide (numericKey p.2 = k)), p.1 = k := by
        intro p hp
        have hm := List.mem_filter.mp hp
        have hv : numericKey p.2 = k := of_decide_eq_true hm.2
        rw [← hnk p hm.1]
        exact hv
      have hcpw : (keyed.filter fun p => decide (numericKey p.2 = k)).Pairwise resultGe := by
        apply List.pairwise_of_forall_mem_list
        intro a ha b hb
        show b.1 ≤ a.1
        rw [hQmem a ha, hQmem b hb]
      have hsub : (keyed.filter fun p => decide (numericKey p.2 = k)).Sublist
          (keyed.insertionSort resultGe) :=
        List.sublist_insertionSort hcpw (List.filter_sublist keyed)
      have hself : (keyed.filter fun p => decide (numericKey p.2 = k)).filter
          (fun p => decide (numericKey p.2 = k)) =
          keyed.filter fun p => decide (numericKey p.2 = k) :=
        List.filter_eq_self.mpr (fun a ha => (List.mem_filter.mp ha).2)
      have hsub2 : (keyed.filter fun p => decide (numericKey p.2 = k)).Sublist
          ((keyed.insertionSort resultGe).filter fun p => decide (numericKey p.2 = k)) :=
        hself ▸ List.Sublist.filter _ hsub
      have hlen : ((keyed.insertionSort resultGe).filter
            fun p => decide (numericKey p.2 = k)).length =
          (keyed.filter fun p => decide (numericKey p.2 = k)).length :=
        (hperm.filter _).length_eq
      have e3 : (keyed.filter fun p => decide (numericKey p.2 = k)) =
          (keyed.insertionSort resultGe).filter fun p => decide (numericKey p.2 = k) :=
        hsub2.eq_of_length hlen.symm
      rw [e1, e2, ← e3]

/-- Witness for C5 on three rows with a tie: Z ranks first, and the tied rows
X and Y keep their input order. -/
theorem C5_stable_descending_sort_witness :
    ∃ pre keyed,
      exMap (scoreRow [⟨"a", "a", 0.5⟩, ⟨"b", "b", 0.5⟩] 1 5)
          [[("tool", "X"), ("a", "5"), ("b", "1")],
           [("tool", "Y"), ("a", "1"), ("b", "5")],
           [("tool", "Z"), ("a", "5"), ("b", "5")]] = Except.ok pre ∧
      exMap sortKey pre = Except.ok keyed ∧
      ([⟨"Z", "5.000", "100.0", ""⟩, ⟨"X", "3.000", "60.0", ""⟩,
        ⟨"Y", "3.000", "60.0", ""⟩] : List Result) =
        (keyed.insertionSort resultGe).map Prod.snd ∧
      ([⟨"Z", "5.000", "100.0", ""⟩, ⟨"X", "3.000", "60.0", ""⟩,
        ⟨"Y", "3.000", "60.0", ""⟩] : List Result).Pairwise
        (fun a b => numericKey b ≤ numericKey a) ∧
      ∀ k : ℚ,
        ([⟨"Z", "5.000", "100.0", ""⟩, ⟨"X", "3.000", "60.0", ""⟩,
          ⟨"Y", "3.000", "60.0", ""⟩] : List Result).filter
            (fun r => decide (numericKey r = k)) =
          pre.filter (fun r => decide (numericKey r = k)) :=
  C5_stable_descending_sort [⟨"a", "a", 0.5⟩, ⟨"b", "b", 0.5⟩]
    [[("tool", "X"), ("a", "5"), ("b", "1")],
     [("tool", "Y"), ("a", "1"), ("b", "5")],
     [("tool", "Z"), ("a", "5"), ("b", "5")]] 1 5
    [⟨"Z", "5.000", "100.0", ""⟩, ⟨"X", "3.000", "60.0", ""⟩, ⟨"Y", "3.000", "60.0", ""⟩]
    (by decide)
